import Mathlib

/-!
# Verification of the log4js GELF appender (`src/lib/index.js`)

A shallow embedding of the appender's transformation pipeline: JavaScript
values are modelled by `JSValue`, objects by insertion-ordered association
lists with JS assignment semantics (`objSet`), and each source function
(`addCustomFields`, `preparePacket`, the gzip callback of `app`,
`app.shutdown`, and the construction of `defaultCustomFields` in
`gelfAppender`) is translated into a Lean function.  JavaScript property
access, which throws a `TypeError` on `undefined`/`null` receivers, is
modelled in the `Except` monad; all other constructs are pure.
-/

namespace Gelf

/-- Model of a JavaScript (JSON-serializable) value as it flows through the
appender.  Numbers are modelled exactly as integers (no claim depends on
fractional values; the wall-clock timestamp enters the model as an opaque
integer parameter).  Arrays do not occur in the appender's data paths and
are omitted. -/
inductive JSValue where
  | undefined : JSValue
  | null : JSValue
  | bool : Bool → JSValue
  | num : Int → JSValue
  | str : String → JSValue
  | obj : List (String × JSValue) → JSValue

/-- A JavaScript object: insertion-ordered association list of fields.
Objects built by the source code never carry duplicate keys (JS object
semantics); theorems carry a `Nodup` hypothesis where it matters. -/
abbrev JSObj := List (String × JSValue)

/-- JavaScript truthiness for the modelled values: `undefined`, `null`,
`false`, `0` and `""` are falsy, everything else (all objects included)
is truthy. -/
def truthy : JSValue → Bool
  | .undefined => false
  | .null => false
  | .bool b => b
  | .num n => n ≠ 0
  | .str s => s ≠ ""
  | .obj _ => true

/-- Reading a field of a JS object: the value of the first (and, for
JS-built objects, only) binding of the key, `undefined` when absent. -/
def objGet (m : JSObj) (k : String) : JSValue :=
  match m with
  | [] => .undefined
  | (k1, v) :: rest => if k1 = k then v else objGet rest k

/-- JS property assignment `m[k] = v`: overwrite the existing binding in
place, else append a new binding (JS objects preserve insertion order). -/
def objSet (m : JSObj) (k : String) (v : JSValue) : JSObj :=
  match m with
  | [] => [(k, v)]
  | (k1, v1) :: rest => if k1 = k then (k1, v) :: rest else (k1, v1) :: objSet rest k v

/-- Property read `x.k` on a value that is not `undefined`/`null`:
objects look the key up, primitives yield `undefined` (they carry no own
properties in this model). -/
def propGet (x : JSValue) (k : String) : JSValue :=
  match x with
  | .obj fs => objGet fs k
  | _ => .undefined

/-- Property read `x.k` with JS error semantics: accessing a property of
`undefined` or `null` throws a `TypeError`. -/
def jsGet (x : JSValue) (k : String) : Except String JSValue :=
  match x with
  | .undefined => .error "TypeError"
  | .null => .error "TypeError"
  | _ => .ok (propGet x k)

/-- The own fields of a value: the entry list of an object, empty for
primitives (`Object.keys` is only ever applied to objects on the
reachable paths of the source). -/
def jsFields : JSValue → JSObj
  | .obj fs => fs
  | _ => []

/-- `array[i]` on the event's `data` sequence: `undefined` out of range. -/
def dataGet (data : List JSValue) (i : Nat) : JSValue :=
  match data.get? i with
  | some v => v
  | none => .undefined

/-- The custom-field filter of `addCustomFields` (src/lib/index.js:68,85):
`key.match(/^_/) && key !== '_id'` — the key starts with an underscore
(its first character is `'_'`) and is not exactly `"_id"`. -/
def customKeyOk (k : String) : Bool :=
  k.data.head? = some '_' && k ≠ "_id"

/-- The `Object.keys(src).forEach` copy loops of `addCustomFields`
(src/lib/index.js:67-71 and 84-88): copy every field passing
`customKeyOk` into the message, in key order. -/
def copyFields (src : JSObj) (msg : JSObj) : JSObj :=
  src.foldl (fun m kv => if customKeyOk kv.1 then objSet m kv.1 kv.2 else m) msg

/-- The level table built at construction (src/lib/index.js:30-37),
read through `levelMapping[loggingEvent.level]` (line 108): an absent
key yields `undefined`.  Level objects are identified by their string
names, as JS does when using them as dictionary keys. -/
def levelMapping (l : String) : JSValue :=
  if l = "ALL" then .num 7
  else if l = "TRACE" then .num 7
  else if l = "DEBUG" then .num 7
  else if l = "INFO" then .num 6
  else if l = "WARN" then .num 4
  else if l = "ERROR" then .num 3
  else if l = "FATAL" then .num 2
  else .undefined

/-- The log event as consumed by the appender: `data`, `level` (by level
name), `categoryName`. -/
structure LoggingEvent where
  data : List JSValue
  level : String
  categoryName : String

/-- The per-instance configuration captured by the `gelfAppender` closure
that the event pipeline reads: resolved hostname, the (truthy) category
field name or `none`, and the default custom field set. -/
structure AppenderConfig where
  hostname : String
  appendCategory : Option String
  defaultCustomFields : JSObj

/-- Steps 1-2 of `addCustomFields` (src/lib/index.js:66-75): copy the
filtered default custom fields into `msg`, then, when `appendCategory`
is configured, set `msg["_" + appendCategory] = loggingEvent.categoryName`. -/
def baseFields (cfg : AppenderConfig) (event : LoggingEvent) (msg : JSObj) : JSObj :=
  let msg := copyFields cfg.defaultCustomFields msg
  match cfg.appendCategory with
  | some cat => objSet msg ("_" ++ cat) (.str event.categoryName)
  | none => msg

/-- `addCustomFields(loggingEvent, msg)` (src/lib/index.js:64-92):
after the default/category steps, probe `data[0]`; when truthy and
carrying a truthy `GELF` property, copy its filtered fields over `msg`
and shift the first data item off the event. Returns the final message
object and the (possibly mutated) event. -/
def addCustomFields (cfg : AppenderConfig) (event : LoggingEvent) (msg : JSObj) :
    Except String (JSObj × LoggingEvent) := do
  let msg := baseFields cfg event msg
  let firstData := dataGet event.data 0
  if truthy firstData then
    let gelf ← jsGet firstData "GELF"
    if truthy gelf = false then
      pure (msg, event)
    else
      pure (copyFields (jsFields firstData) msg,
            { event with data := event.data.tail })
  else
    pure (msg, event)

/-- `preparePacket(loggingEvent)` (src/lib/index.js:94-110): build the
GELF message object.  `now` is the value of
`new Date().getTime() / 1000` at the call.  Returns the packet and the
event as left by `addCustomFields`. -/
def preparePacket (cfg : AppenderConfig) (now : Int) (event : LoggingEvent) :
    Except String (JSObj × LoggingEvent) := do
  let (msg, event) ← addCustomFields cfg event []
  let msg := objSet msg "short_message" (dataGet event.data 0)
  let second := dataGet event.data 1
  let msg ←
    if truthy second then do
      let st ← jsGet second "stack"
      pure (objSet msg "full_message" st)
    else
      pure (objSet msg "full_message" (.str ""))
  let msg := objSet msg "version" (.str "1.1")
  let ts := objGet msg "timestamp"
  let msg := objSet msg "timestamp" (if truthy ts then ts else .num now)
  let msg := objSet msg "host" (.str cfg.hostname)
  let msg := objSet msg "level" (levelMapping event.level)
  pure (msg, event)

/-- What the gzip completion callback inside `app` (src/lib/index.js:121-135)
does with each outcome: on a compression error it reports the error
(`console.error(err.stack)`); on success it drops the packet with only a
debug trace when its length exceeds 8192 bytes, and otherwise hands it to
`sendPacket`. -/
inductive SendOutcome where
  | errorReported : String → SendOutcome
  | droppedOversize : Nat → SendOutcome
  | sent : List Nat → SendOutcome

/-- The body of the `zlib.gzip` callback in `app`
(src/lib/index.js:123-133), with the compressed buffer modelled as its
byte list. -/
def gzipCallback (err : Option String) (packet : List Nat) : SendOutcome :=
  match err with
  | some e => .errorReported e
  | none =>
    if packet.length > 8192 then .droppedOversize packet.length
    else .sent packet

/-- Whether an outcome writes to the error channel (`console.error`);
the oversize drop only emits a `debug` trace and surfaces nothing. -/
def reportsError : SendOutcome → Bool
  | .errorReported _ => true
  | _ => false

/-- The UDP socket created once by `dgram.createSocket` in `gelfAppender`
(src/lib/index.js:54).  `closeAttempts` counts calls to `close`. -/
structure GelfSocket where
  closed : Bool
  closeAttempts : Nat
  deriving DecidableEq, Repr

/-- Model of `dgram.Socket.close` (Node built-in): closing marks the
socket closed; a close attempted on an already-closed socket throws
`ERR_SOCKET_DGRAM_NOT_RUNNING` (the returned flag). -/
def socketClose (s : GelfSocket) : GelfSocket × Bool :=
  ({ closed := true, closeAttempts := s.closeAttempts + 1 }, s.closed)

/-- The appender's process-level state: the shared socket and whether the
`process.on('exit', exit)` hook (src/lib/index.js:56) is installed. -/
structure AppenderState where
  socket : GelfSocket
  exitHookInstalled : Bool
  deriving DecidableEq, Repr

/-- State right after `gelfAppender` runs: fresh open socket, exit hook
installed. -/
def initialAppenderState : AppenderState :=
  { socket := { closed := false, closeAttempts := 0 }, exitHookInstalled := true }

/-- `app.shutdown` (src/lib/index.js:136-140): unconditionally
`client.close(cb)` then `process.removeListener('exit', exit)`.  When
`close` throws, the exception propagates and the listener removal is
never reached. -/
def shutdown (st : AppenderState) : AppenderState × Except String Unit :=
  let closeStep := socketClose st.socket
  if closeStep.2 then
    ({ st with socket := closeStep.1 }, .error "ERR_SOCKET_DGRAM_NOT_RUNNING")
  else
    ({ socket := closeStep.1, exitHookInstalled := false }, .ok ())

/-- The construction-time configuration object handed to `gelfAppender`
(the options the `defaultCustomFields` setup reads).  `none` stands for
an absent or falsy option. -/
structure GelfConfig where
  facility : Option String
  customFields : Option JSObj

/-- Lines 48-51 of src/lib/index.js:
`const defaultCustomFields = customFields || {};` followed by
`if (facility) { defaultCustomFields._facility = facility; }`.
Because `defaultCustomFields` aliases the caller's `customFields` object
when one was supplied, the `_facility` write lands in that object; the
function returns the configuration as the caller now sees it together
with the default field set. -/
def buildDefaults (config : GelfConfig) : GelfConfig × JSObj :=
  let aliased := config.customFields.isSome
  let defaults := config.customFields.getD []
  match config.facility with
  | some fac =>
    let defaults := objSet defaults "_facility" (.str fac)
    (if aliased then { config with customFields := some defaults } else config, defaults)
  | none => (config, defaults)

/-- Whether a value is JavaScript `undefined`. -/
def isUndefined : JSValue → Bool
  | .undefined => true
  | _ => false

mutual

/-- Model of `JSON.parse(JSON.stringify(v))` for the modelled values
(external `JSON` built-in): object members whose value is `undefined`
are omitted by `JSON.stringify`, recursively; every other modelled value
survives the round trip unchanged. -/
def jsonRoundTrip : JSValue → JSValue
  | .obj fs => .obj (jsonRoundTripFields fs)
  | v => v

/-- Member-list part of `jsonRoundTrip`: drop `undefined`-valued members,
recurse into the rest. -/
def jsonRoundTripFields : List (String × JSValue) → List (String × JSValue)
  | [] => []
  | (k, v) :: rest =>
    if isUndefined v then jsonRoundTripFields rest
    else (k, jsonRoundTrip v) :: jsonRoundTripFields rest

end

mutual

/-- No object member anywhere inside the value is bound to `undefined`
(the values that `JSON.stringify`/`JSON.parse` reproduce exactly). -/
def noUndefMembers : JSValue → Bool
  | .obj fs => noUndefMemberFields fs
  | _ => true

/-- Member-list part of `noUndefMembers`. -/
def noUndefMemberFields : List (String × JSValue) → Bool
  | [] => true
  | (_, v) :: rest => !isUndefined v && noUndefMembers v && noUndefMemberFields rest

end

mutual

/-- Structural (decidable) equality test on modelled JS values. -/
def beqVal : JSValue → JSValue → Bool
  | .undefined, .undefined => true
  | .null, .null => true
  | .bool a, .bool b => a == b
  | .num a, .num b => a == b
  | .str a, .str b => a == b
  | .obj a, .obj b => beqFields a b
  | _, _ => false

/-- Member-list part of `beqVal`. -/
def beqFields : List (String × JSValue) → List (String × JSValue) → Bool
  | [], [] => true
  | (k1, v1) :: r1, (k2, v2) :: r2 => k1 == k2 && beqVal v1 v2 && beqFields r1 r2
  | _, _ => false

end

/-- Model of zlib gzip (external built-in): an invertible byte coding of
the JSON text; only invertibility matters to the pipeline, so the coding
is modelled as the identity on the character list. -/
def gzipModel (s : String) : List Char := s.data

/-- Model of zlib gunzip, the inverse coding. -/
def gunzipModel (l : List Char) : String := ⟨l⟩

/-- What the receiver reconstructs from a compressed packet: gunzip the
buffer and `JSON.parse` the text, i.e. the `jsonRoundTrip` of the packet
object (gzip/gunzip cancel by the zlib contract). -/
def decompressReparse (msg : JSObj) : JSValue :=
  jsonRoundTrip (.obj msg)

/-- Pure form of the packet-assembly tail of `preparePacket`
(src/lib/index.js:97-109), applied to the message and event returned by
`addCustomFields`; related to `preparePacket` by `preparePacket_eq`. -/
def finishPacket (cfg : AppenderConfig) (now : Int) (m : JSObj) (e1 : LoggingEvent) : JSObj :=
  let msg := objSet m "short_message" (dataGet e1.data 0)
  let second := dataGet e1.data 1
  let msg :=
    if truthy second then objSet msg "full_message" (propGet second "stack")
    else objSet msg "full_message" (.str "")
  let msg := objSet msg "version" (.str "1.1")
  let ts := objGet msg "timestamp"
  let msg := objSet msg "timestamp" (if truthy ts then ts else .num now)
  let msg := objSet msg "host" (.str cfg.hostname)
  objSet msg "level" (levelMapping e1.level)

/-! ## Concrete example inputs and their computed packets -/

/-- A minimal configuration: hostname `"h"`, no category append, no
default custom fields. -/
def cfgH : AppenderConfig := ⟨"h", none, []⟩

/-- An event logging the single string `"hello"` at INFO. -/
def eHello : LoggingEvent := ⟨[.str "hello"], "INFO", "c"⟩

/-- The packet `preparePacket cfgH 0 eHello` produces. -/
def mHello : JSObj :=
  [("short_message", .str "hello"), ("full_message", .str ""),
   ("version", .str "1.1"), ("timestamp", .num 0), ("host", .str "h"),
   ("level", .num 6)]

/-- An event logging `"hi"` at WARN. -/
def eWarn : LoggingEvent := ⟨[.str "hi"], "WARN", "c"⟩

/-- The packet `preparePacket cfgH 0 eWarn` produces. -/
def mWarn : JSObj :=
  [("short_message", .str "hi"), ("full_message", .str ""),
   ("version", .str "1.1"), ("timestamp", .num 0), ("host", .str "h"),
   ("level", .num 4)]

/-- An event at the unmapped level `OFF`. -/
def eOff : LoggingEvent := ⟨[.str "hi"], "OFF", "c"⟩

/-- The packet `preparePacket cfgH 0 eOff` produces: its `level` is
`undefined`. -/
def mOff : JSObj :=
  [("short_message", .str "hi"), ("full_message", .str ""),
   ("version", .str "1.1"), ("timestamp", .num 0), ("host", .str "h"),
   ("level", .undefined)]

/-- Configuration with one default custom field `_x = 1`. -/
def cfgX : AppenderConfig := ⟨"h", none, [("_x", .num 1)]⟩

/-- An event whose first data item is a GELF carrier setting `_x = 5`,
followed by the message `"msg"`. -/
def eCarrier : LoggingEvent :=
  ⟨[.obj [("GELF", .bool true), ("_x", .num 5)], .str "msg"], "INFO", "c"⟩

/-- Configuration with default custom fields `{_a: 1, _id: 99}`. -/
def cfgAId : AppenderConfig := ⟨"h", none, [("_a", .num 1), ("_id", .num 99)]⟩

/-- The packet `preparePacket cfgAId 0 eHello` produces: `_a` copied,
`_id` rejected. -/
def mAId : JSObj :=
  [("_a", .num 1), ("short_message", .str "hello"), ("full_message", .str ""),
   ("version", .str "1.1"), ("timestamp", .num 0), ("host", .str "h"),
   ("level", .num 6)]

/-- An event whose second data item is present but falsy (`false`). -/
def eFalsySecond : LoggingEvent := ⟨[.str "hello", .bool false], "INFO", "c"⟩

/-- The packet `preparePacket cfgH 0 eFalsySecond` produces. -/
def mFalsySecond : JSObj :=
  [("short_message", .str "hello"), ("full_message", .str ""),
   ("version", .str "1.1"), ("timestamp", .num 0), ("host", .str "h"),
   ("level", .num 6)]

/-- An event whose only data item is a GELF carrier: after the shift the
packet's `short_message` is `undefined`. -/
def eOnlyCarrier : LoggingEvent := ⟨[.obj [("GELF", .bool true)]], "INFO", "c"⟩

/-- `eOnlyCarrier` after `addCustomFields` shifted its data. -/
def eOnlyCarrierShifted : LoggingEvent := ⟨[], "INFO", "c"⟩

/-- The packet `preparePacket cfgH 0 eOnlyCarrier` produces:
`short_message` is `undefined`. -/
def mOnlyCarrier : JSObj :=
  [("short_message", .undefined), ("full_message", .str ""),
   ("version", .str "1.1"), ("timestamp", .num 0), ("host", .str "h"),
   ("level", .num 6)]

/-- Configuration with `appendCategory = "id"`. -/
def cfgCatId : AppenderConfig := ⟨"h", some "id", []⟩

/-! ## Basic lemmas about the object operations -/

theorem jsGet_ok_of_truthy (x : JSValue) (k : String) (h : truthy x = true) :
    jsGet x k = .ok (propGet x k) := by
  cases x <;> simp_all [truthy, jsGet]

theorem objGet_objSet_self (m : JSObj) (k : String) (v : JSValue) :
    objGet (objSet m k v) k = v := by
  induction m with
  | nil => simp [objSet, objGet]
  | cons kv rest ih =>
    obtain ⟨k1, v1⟩ := kv
    by_cases hk : k1 = k <;> simp [objSet, objGet, hk, ih]

theorem objGet_objSet_ne (m : JSObj) (k1 k2 : String) (v : JSValue) (h : k1 ≠ k2) :
    objGet (objSet m k1 v) k2 = objGet m k2 := by
  induction m with
  | nil => simp [objSet, objGet, h]
  | cons kv rest ih =>
    obtain ⟨ka, va⟩ := kv
    by_cases hk : ka = k1 <;> by_cases hk2 : ka = k2 <;>
      simp_all [objSet, objGet]

theorem objSet_not_mem (m : JSObj) (k : String) (v : JSValue)
    (h : k ∉ m.map Prod.fst) : objSet m k v = m ++ [(k, v)] := by
  induction m with
  | nil => simp [objSet]
  | cons kv rest ih =>
    obtain ⟨ka, va⟩ := kv
    simp only [List.map_cons, List.mem_cons, not_or] at h
    have hne : ka ≠ k := Ne.symm h.1
    simp [objSet, hne, ih h.2]

theorem copyFields_nil (m : JSObj) : copyFields [] m = m := rfl

theorem copyFields_cons (k : String) (v : JSValue) (rest : JSObj) (m : JSObj) :
    copyFields ((k, v) :: rest) m =
      copyFields rest (if customKeyOk k then objSet m k v else m) := rfl

theorem objGet_copyFields_not_custom (src : JSObj) (k : String)
    (h : customKeyOk k = false) :
    ∀ m, objGet (copyFields src m) k = objGet m k := by
  induction src with
  | nil => intro m; rfl
  | cons kv rest ih =>
    obtain ⟨ka, va⟩ := kv
    intro m
    rw [copyFields_cons]
    by_cases hka : customKeyOk ka = true
    · have hne : ka ≠ k := fun he => by subst he; simp [h] at hka
      rw [if_pos hka, ih, objGet_objSet_ne _ _ _ _ hne]
    · rw [if_neg hka, ih]

theorem objGet_copyFields_not_mem (src : JSObj) (k : String) :
    ∀ m, k ∉ src.map Prod.fst → objGet (copyFields src m) k = objGet m k := by
  induction src with
  | nil => intro m _; rfl
  | cons kv rest ih =>
    obtain ⟨ka, va⟩ := kv
    intro m h
    simp only [List.map_cons, List.mem_cons, not_or] at h
    rw [copyFields_cons]
    by_cases hka : customKeyOk ka = true
    · rw [if_pos hka, ih _ h.2, objGet_objSet_ne _ _ _ _ (Ne.symm h.1)]
    · rw [if_neg hka, ih _ h.2]

theorem objGet_copyFields_mem (src : JSObj) (k : String) (v : JSValue)
    (hok : customKeyOk k = true) :
    ∀ m, (src.map Prod.fst).Nodup → (k, v) ∈ src →
      objGet (copyFields src m) k = v := by
  induction src with
  | nil => intro m _ hmem; cases hmem
  | cons kv rest ih =>
    obtain ⟨ka, va⟩ := kv
    intro m hnd hmem
    simp only [List.map_cons, List.nodup_cons] at hnd
    rw [copyFields_cons]
    rcases List.mem_cons.mp hmem with heq | hrest
    · injection heq with h1 h2
      subst h1; subst h2
      rw [if_pos hok, objGet_copyFields_not_mem rest k _ hnd.1, objGet_objSet_self]
    · by_cases hka : customKeyOk ka = true
      · rw [if_pos hka]; exact ih _ hnd.2 hrest
      · rw [if_neg hka]; exact ih _ hnd.2 hrest

theorem keys_copyFields (src : JSObj) :
    ∀ m, (src.map Prod.fst).Nodup →
      (∀ k ∈ src.map Prod.fst, k ∉ m.map Prod.fst) →
      (copyFields src m).map Prod.fst =
        m.map Prod.fst ++ (src.map Prod.fst).filter customKeyOk := by
  induction src with
  | nil => intro m _ _; simp [copyFields_nil]
  | cons kv rest ih =>
    obtain ⟨ka, va⟩ := kv
    intro m hnd hdisj
    simp only [List.map_cons, List.nodup_cons] at hnd
    have hanm : ka ∉ m.map Prod.fst := hdisj ka (by simp)
    rw [copyFields_cons]
    by_cases hka : customKeyOk ka = true
    · rw [if_pos hka]
      rw [ih (objSet m ka va) hnd.2 ?hdis]
      · rw [objSet_not_mem m ka va hanm, List.map_append]
        simp [List.filter_cons, hka, List.append_assoc]
      case hdis =>
        intro k hk hmem
        rw [objSet_not_mem m ka va hanm, List.map_append] at hmem
        rcases List.mem_append.mp hmem with hm | hs
        · exact hdisj k (by simp [hk]) hm
        · simp only [List.map_cons, List.map_nil, List.mem_singleton] at hs
          exact hnd.1 (hs ▸ hk)
    · rw [if_neg hka, ih m hnd.2 (fun k hk => hdisj k (by simp [hk]))]
      simp [List.filter_cons, hka]

/-! ## Characterizations of the pipeline functions -/

theorem except_ok_bind {ε α β : Type} (a : α) (f : α → Except ε β) :
    (Except.ok a >>= f) = f a := rfl

theorem except_pure_eq {ε α : Type} (a : α) : (pure a : Except ε α) = .ok a := rfl

/-- `addCustomFields` never throws and lands in exactly one of three
cases: falsy first item (no copy, no shift), truthy first item without a
truthy `GELF` property (no copy, no shift), or a GELF carrier (filtered
copy over the base fields, first item shifted off). -/
theorem addCustomFields_eq (cfg : AppenderConfig) (e : LoggingEvent) (msg0 : JSObj) :
    addCustomFields cfg e msg0 =
      if truthy (dataGet e.data 0) = false then .ok (baseFields cfg e msg0, e)
      else if truthy (propGet (dataGet e.data 0) "GELF") = false then
        .ok (baseFields cfg e msg0, e)
      else
        .ok (copyFields (jsFields (dataGet e.data 0)) (baseFields cfg e msg0),
             { e with data := e.data.tail }) := by
  by_cases h0 : truthy (dataGet e.data 0) = true
  · by_cases hg : truthy (propGet (dataGet e.data 0) "GELF") = true
    · simp [addCustomFields, h0, hg, jsGet_ok_of_truthy _ _ h0, except_ok_bind,
        except_pure_eq]
    · simp only [Bool.not_eq_true] at hg
      simp [addCustomFields, h0, hg, jsGet_ok_of_truthy _ _ h0, except_ok_bind,
        except_pure_eq]
  · simp only [Bool.not_eq_true] at h0
    simp [addCustomFields, h0, except_pure_eq]

theorem addCustomFields_ok (cfg : AppenderConfig) (e : LoggingEvent) (msg0 : JSObj) :
    ∃ m e1, addCustomFields cfg e msg0 = .ok (m, e1) := by
  rw [addCustomFields_eq]
  split
  · exact ⟨_, _, rfl⟩
  split
  · exact ⟨_, _, rfl⟩
  · exact ⟨_, _, rfl⟩

/-- `addCustomFields` only ever mutates the event's `data` (by a shift);
level and category are untouched. -/
theorem addCustomFields_event (cfg : AppenderConfig) (e : LoggingEvent) (msg0 : JSObj)
    (m : JSObj) (e1 : LoggingEvent) (h : addCustomFields cfg e msg0 = .ok (m, e1)) :
    e1.level = e.level ∧ e1.categoryName = e.categoryName := by
  rw [addCustomFields_eq] at h
  split at h
  · cases h; exact ⟨rfl, rfl⟩
  split at h
  · cases h; exact ⟨rfl, rfl⟩
  · cases h; exact ⟨rfl, rfl⟩

theorem preparePacket_eq (cfg : AppenderConfig) (now : Int) (e : LoggingEvent)
    (m : JSObj) (e1 : LoggingEvent) (h : addCustomFields cfg e [] = .ok (m, e1)) :
    preparePacket cfg now e = .ok (finishPacket cfg now m e1, e1) := by
  by_cases h2 : truthy (dataGet e1.data 1) = true
  · simp [preparePacket, h, h2, jsGet_ok_of_truthy _ _ h2, finishPacket,
      except_ok_bind, except_pure_eq]
  · simp only [Bool.not_eq_true] at h2
    simp [preparePacket, h, h2, finishPacket, except_ok_bind, except_pure_eq]

/-- `preparePacket` never throws. -/
theorem preparePacket_ok (cfg : AppenderConfig) (now : Int) (e : LoggingEvent) :
    ∃ m e1, preparePacket cfg now e = .ok (m, e1) := by
  obtain ⟨m0, e1, hac⟩ := addCustomFields_ok cfg e []
  exact ⟨_, _, preparePacket_eq cfg now e m0 e1 hac⟩

theorem objGet_finishPacket_level (cfg : AppenderConfig) (now : Int) (m : JSObj)
    (e1 : LoggingEvent) :
    objGet (finishPacket cfg now m e1) "level" = levelMapping e1.level := by
  simp [finishPacket, objGet_objSet_self]

theorem objGet_finishPacket_short (cfg : AppenderConfig) (now : Int) (m : JSObj)
    (e1 : LoggingEvent) :
    objGet (finishPacket cfg now m e1) "short_message" = dataGet e1.data 0 := by
  simp only [finishPacket]
  rw [objGet_objSet_ne _ _ _ _ (by decide), objGet_objSet_ne _ _ _ _ (by decide),
      objGet_objSet_ne _ _ _ _ (by decide), objGet_objSet_ne _ _ _ _ (by decide)]
  by_cases h2 : truthy (dataGet e1.data 1) = true
  · rw [if_pos h2, objGet_objSet_ne _ _ _ _ (by decide), objGet_objSet_self]
  · rw [if_neg h2, objGet_objSet_ne _ _ _ _ (by decide), objGet_objSet_self]

mutual

theorem jsonRoundTrip_id (v : JSValue) (h : noUndefMembers v = true) :
    jsonRoundTrip v = v :=
  match v with
  | .undefined => rfl
  | .null => rfl
  | .bool _ => rfl
  | .num _ => rfl
  | .str _ => rfl
  | .obj fs => by
    show JSValue.obj (jsonRoundTripFields fs) = JSValue.obj fs
    rw [jsonRoundTripFields_id fs (by simpa [noUndefMembers] using h)]

theorem jsonRoundTripFields_id (fs : List (String × JSValue))
    (h : noUndefMemberFields fs = true) : jsonRoundTripFields fs = fs :=
  match fs with
  | [] => rfl
  | (k, v) :: rest => by
    rw [noUndefMemberFields] at h
    simp only [Bool.and_eq_true, Bool.not_eq_true'] at h
    show (if isUndefined v then jsonRoundTripFields rest
          else (k, jsonRoundTrip v) :: jsonRoundTripFields rest) = (k, v) :: rest
    rw [if_neg (by rw [h.1.1]; exact Bool.false_ne_true)]
    rw [jsonRoundTrip_id v h.1.2, jsonRoundTripFields_id rest h.2]

end

mutual

theorem beqVal_refl (a : JSValue) : beqVal a a = true :=
  match a with
  | .undefined => rfl
  | .null => rfl
  | .bool b => by show (b == b) = true; simp
  | .num n => by show (n == n) = true; simp
  | .str s => by show (s == s) = true; simp
  | .obj fs => beqFields_refl fs

theorem beqFields_refl (fs : List (String × JSValue)) : beqFields fs fs = true :=
  match fs with
  | [] => rfl
  | (k, v) :: rest => by
    show ((k == k) && beqVal v v && beqFields rest rest) = true
    rw [beqVal_refl v, beqFields_refl rest]
    simp

end

theorem ne_of_beqVal_false {a b : JSValue} (h : beqVal a b = false) : a ≠ b :=
  fun he => by rw [he, beqVal_refl] at h; cases h

theorem objGet_finishPacket_full (cfg : AppenderConfig) (now : Int) (m : JSObj)
    (e1 : LoggingEvent) :
    objGet (finishPacket cfg now m e1) "full_message" =
      if truthy (dataGet e1.data 1) then propGet (dataGet e1.data 1) "stack"
      else .str "" := by
  simp only [finishPacket]
  rw [objGet_objSet_ne _ _ _ _ (by decide), objGet_objSet_ne _ _ _ _ (by decide),
      objGet_objSet_ne _ _ _ _ (by decide), objGet_objSet_ne _ _ _ _ (by decide)]
  by_cases h2 : truthy (dataGet e1.data 1) = true
  · rw [if_pos h2, if_pos h2, objGet_objSet_self]
  · rw [if_neg h2, if_neg h2, objGet_objSet_self]

/-! ## Claim theorems -/

/-- Claim C1: the gzip callback of `app` sends the compressed buffer as a
UDP datagram exactly when its byte length is at most 8192; an oversized
buffer is dropped with only a debug trace, surfacing no error. -/
theorem transport_size_gate :
    (∀ packet : List Nat,
      gzipCallback none packet = .sent packet ↔ packet.length ≤ 8192) ∧
    (∀ packet : List Nat, 8192 < packet.length →
      gzipCallback none packet = .droppedOversize packet.length ∧
      reportsError (gzipCallback none packet) = false) := by
  have hcb : ∀ packet : List Nat, gzipCallback none packet =
      if packet.length > 8192 then SendOutcome.droppedOversize packet.length
      else SendOutcome.sent packet := fun _ => rfl
  constructor
  · intro packet
    rw [hcb]
    by_cases hlen : packet.length > 8192
    · rw [if_pos hlen]
      exact ⟨fun h => absurd h (by simp), fun h => absurd h (by omega)⟩
    · rw [if_neg hlen]
      exact ⟨fun _ => by omega, fun _ => rfl⟩
  · intro packet hlen
    rw [hcb, if_pos hlen]
    exact ⟨rfl, rfl⟩

/-- Claim C1 witness: a buffer of exactly 8192 bytes is sent; one of
exactly 8193 bytes is dropped as oversized, with no error reported. -/
theorem transport_size_gate_witness :
    gzipCallback none (List.replicate 8192 0) = .sent (List.replicate 8192 0) ∧
    gzipCallback none (List.replicate 8193 0) = .droppedOversize 8193 ∧
    reportsError (gzipCallback none (List.replicate 8193 0)) = false := by
  have h92 : (List.replicate 8192 (0 : Nat)).length = 8192 := List.length_replicate _ _
  have h93 : (List.replicate 8193 (0 : Nat)).length = 8193 := List.length_replicate _ _
  refine ⟨(transport_size_gate.1 (List.replicate 8192 0)).mpr (by omega), ?_,
    (transport_size_gate.2 (List.replicate 8193 0) (by omega)).2⟩
  have h := (transport_size_gate.2 (List.replicate 8193 0) (by omega)).1
  rw [h93] at h
  exact h

/-- Claim C2 counterexample: calling `shutdown` twice attempts a second
socket close (two close attempts are recorded) and the second call
throws `ERR_SOCKET_DGRAM_NOT_RUNNING`, contradicting the claim that the
second call is a socket no-op that must not throw. -/
theorem shutdown_twice_counterexample :
    (shutdown (shutdown initialAppenderState).1).2 =
      .error "ERR_SOCKET_DGRAM_NOT_RUNNING" ∧
    (shutdown (shutdown initialAppenderState).1).1.socket.closeAttempts = 2 :=
  ⟨rfl, rfl⟩

/-- Claim C2 amended: `shutdown` closes the socket and removes the exit
hook on the first call, but it keeps no released flag: a second call
unconditionally attempts another `client.close`, which the socket layer
rejects with `ERR_SOCKET_DGRAM_NOT_RUNNING`; shutdown is therefore not
idempotent with respect to the socket. -/
theorem shutdown_second_close :
    (shutdown initialAppenderState).2 = .ok () ∧
    (shutdown initialAppenderState).1.socket.closed = true ∧
    (shutdown initialAppenderState).1.socket.closeAttempts = 1 ∧
    (shutdown initialAppenderState).1.exitHookInstalled = false ∧
    (shutdown (shutdown initialAppenderState).1).1.socket.closeAttempts = 2 ∧
    (shutdown (shutdown initialAppenderState).1).2 =
      .error "ERR_SOCKET_DGRAM_NOT_RUNNING" :=
  ⟨rfl, rfl, rfl, rfl, rfl, rfl⟩

/-- Claim C3: the level table maps ALL, TRACE and DEBUG to 7, INFO to 6,
WARN to 4, ERROR to 3, FATAL to 2, and `preparePacket` places the mapped
value in the packet's `level` field. -/
theorem level_mapping_values :
    levelMapping "ALL" = .num 7 ∧ levelMapping "TRACE" = .num 7 ∧
    levelMapping "DEBUG" = .num 7 ∧ levelMapping "INFO" = .num 6 ∧
    levelMapping "WARN" = .num 4 ∧ levelMapping "ERROR" = .num 3 ∧
    levelMapping "FATAL" = .num 2 ∧
    ∀ (cfg : AppenderConfig) (now : Int) (e : LoggingEvent)
      (m : JSObj) (e1 : LoggingEvent),
      preparePacket cfg now e = .ok (m, e1) →
      objGet m "level" = levelMapping e.level := by
  refine ⟨rfl, rfl, rfl, rfl, rfl, rfl, rfl, ?_⟩
  intro cfg now e m e1 h
  obtain ⟨m0, e1x, hac⟩ := addCustomFields_ok cfg e []
  rw [preparePacket_eq cfg now e m0 e1x hac] at h
  injection h with h1
  injection h1 with hm he
  subst hm
  rw [objGet_finishPacket_level, (addCustomFields_event cfg e [] m0 e1x hac).1]

/-- Claim C3 witness: a WARN event yields a packet whose level is the
mapped value 4. -/
theorem level_mapping_values_witness :
    objGet mWarn "level" = levelMapping "WARN" :=
  level_mapping_values.2.2.2.2.2.2.2 cfgH 0 eWarn mWarn eWarn rfl

/-- Claim C4: when the first data item is an object with a truthy `GELF`
key, `addCustomFields` copies every `_`-prefixed non-`_id` key of it over
the default fields and shifts the item off the event's data; otherwise it
performs no per-event copy and leaves the data untouched. -/
theorem gelf_carrier_custom_fields (cfg : AppenderConfig) (e : LoggingEvent)
    (msg0 : JSObj) :
    (∀ fs, dataGet e.data 0 = .obj fs → truthy (objGet fs "GELF") = true →
      addCustomFields cfg e msg0 =
        .ok (copyFields fs (baseFields cfg e msg0), { e with data := e.data.tail }) ∧
      ∀ k v, (fs.map Prod.fst).Nodup → (k, v) ∈ fs → customKeyOk k = true →
        objGet (copyFields fs (baseFields cfg e msg0)) k = v) ∧
    ((∀ fs, dataGet e.data 0 = .obj fs → truthy (objGet fs "GELF") = false) →
      addCustomFields cfg e msg0 = .ok (baseFields cfg e msg0, e)) := by
  constructor
  · intro fs h0 hg
    constructor
    · rw [addCustomFields_eq, h0,
        if_neg (by simp [truthy] : ¬truthy (JSValue.obj fs) = false),
        if_neg (by simp [propGet, hg] :
          ¬truthy (propGet (JSValue.obj fs) "GELF") = false)]
      rfl
    · intro k v hnd hmem hok
      exact objGet_copyFields_mem fs k v hok _ hnd hmem
  · intro hng
    rw [addCustomFields_eq]
    rcases hd : dataGet e.data 0 with _ | _ | b | n | s | fs
    · rfl
    · rfl
    · cases b <;> rfl
    · by_cases hn : n = 0
      · subst hn; rfl
      · have h1 : ¬truthy (JSValue.num n) = false := by simp [truthy, hn]
        simp only [if_neg h1]
        rfl
    · by_cases hs : s = ""
      · subst hs; rfl
      · have h1 : ¬truthy (JSValue.str s) = false := by simp [truthy, hs]
        simp only [if_neg h1]
        rfl
    · have h1 : ¬truthy (JSValue.obj fs) = false := by simp [truthy]
      have h2 : truthy (propGet (JSValue.obj fs) "GELF") = false := by
        simpa [propGet] using hng fs hd
      simp only [if_neg h1, if_pos h2]

/-- Claim C4 witness: for data `[{GELF: true, _x: 5}, "msg"]` with default
`_x = 1`, the copied value `_x = 5` overwrites the default and the
carrier is removed; for data `["hello"]` nothing is copied and the event
is unchanged. -/
theorem gelf_carrier_custom_fields_witness :
    objGet (copyFields [("GELF", JSValue.bool true), ("_x", JSValue.num 5)]
      (baseFields cfgX eCarrier [])) "_x" = JSValue.num 5 ∧
    addCustomFields cfgX eCarrier [] =
      .ok (copyFields [("GELF", JSValue.bool true), ("_x", JSValue.num 5)]
        (baseFields cfgX eCarrier []), ⟨[.str "msg"], "INFO", "c"⟩) ∧
    addCustomFields cfgH eHello [] = .ok (baseFields cfgH eHello [], eHello) :=
  ⟨((gelf_carrier_custom_fields cfgX eCarrier []).1 _ rfl rfl).2 "_x" (.num 5)
      (by decide) (List.mem_cons_of_mem _ (List.mem_cons_self _ _)) (by decide),
   ((gelf_carrier_custom_fields cfgX eCarrier []).1 _ rfl rfl).1,
   (gelf_carrier_custom_fields cfgH eHello []).2 (fun fs h => nomatch h)⟩

/-- Claim C5: a default custom field is copied exactly when its key
starts with `_` and is not `_id`; with defaults `{_a: 1, _id: 99}` and no
per-event override, the packet contains `_a = 1` and no `_id` key. -/
theorem default_fields_filter :
    (∀ defaults : JSObj, (defaults.map Prod.fst).Nodup →
      (copyFields defaults []).map Prod.fst =
        (defaults.map Prod.fst).filter customKeyOk) ∧
    (∀ (defaults : JSObj) (k : String) (v : JSValue),
      (defaults.map Prod.fst).Nodup → (k, v) ∈ defaults →
      customKeyOk k = true → objGet (copyFields defaults []) k = v) ∧
    preparePacket cfgAId 0 eHello = .ok (mAId, eHello) ∧
    objGet mAId "_a" = .num 1 ∧ "_id" ∉ mAId.map Prod.fst := by
  refine ⟨?_, ?_, rfl, rfl, by decide⟩
  · intro defaults hnd
    simpa using keys_copyFields defaults [] hnd (by simp)
  · intro defaults k v hnd hmem hok
    exact objGet_copyFields_mem defaults k v hok [] hnd hmem

/-- Claim C5 witness: on the defaults `{_a: 1, _id: 99}` the filter keeps
`_a` (with its value) and drops `_id`. -/
theorem default_fields_filter_witness :
    objGet (copyFields [("_a", JSValue.num 1), ("_id", JSValue.num 99)] []) "_a" =
      JSValue.num 1 ∧
    (copyFields [("_a", JSValue.num 1), ("_id", JSValue.num 99)] []).map Prod.fst =
      ["_a"] :=
  ⟨default_fields_filter.2.1 [("_a", .num 1), ("_id", .num 99)] "_a" (.num 1)
      (by decide) (List.mem_cons_self _ _) (by decide),
   by rw [default_fields_filter.1 [("_a", .num 1), ("_id", .num 99)] (by decide)]
      decide⟩

/-- Claim C6 counterexample: for data `["hello", false]` the second data
item is present, yet the packet's `full_message` is `""` while the stack
field of that item is `undefined` — the code tests the second item for
truthiness, not presence, so the claim as stated fails. -/
theorem message_fields_counterexample :
    eFalsySecond.data.get? 1 = some (.bool false) ∧
    preparePacket cfgH 0 eFalsySecond = .ok (mFalsySecond, eFalsySecond) ∧
    objGet mFalsySecond "full_message" = .str "" ∧
    propGet (.bool false) "stack" = .undefined ∧
    JSValue.str "" ≠ JSValue.undefined :=
  ⟨rfl, rfl, rfl, rfl, fun h => nomatch h⟩

/-- Claim C6 amended: `short_message` is the post-merge first data item;
`full_message` is the `stack` field of the post-merge second data item
when that item is present and truthy, else the empty string; for data
`["hello"]` the packet has `short_message = "hello"`,
`full_message = ""`. -/
theorem message_fields :
    (∀ (cfg : AppenderConfig) (now : Int) (e : LoggingEvent)
      (m : JSObj) (e1 : LoggingEvent),
      preparePacket cfg now e = .ok (m, e1) →
      objGet m "short_message" = dataGet e1.data 0 ∧
      objGet m "full_message" =
        (if truthy (dataGet e1.data 1) then propGet (dataGet e1.data 1) "stack"
         else .str "")) ∧
    preparePacket cfgH 0 eHello = .ok (mHello, eHello) ∧
    objGet mHello "short_message" = .str "hello" ∧
    objGet mHello "full_message" = .str "" := by
  refine ⟨?_, rfl, rfl, rfl⟩
  intro cfg now e m e1 h
  obtain ⟨m0, e1x, hac⟩ := addCustomFields_ok cfg e []
  rw [preparePacket_eq cfg now e m0 e1x hac] at h
  injection h with h1
  injection h1 with hm he
  subst hm; subst he
  exact ⟨objGet_finishPacket_short cfg now m0 e1x,
    objGet_finishPacket_full cfg now m0 e1x⟩

/-- Claim C6 witness: the amended field equations evaluated on the
`["hello"]` event. -/
theorem message_fields_witness :
    objGet mHello "short_message" = dataGet eHello.data 0 ∧
    objGet mHello "full_message" =
      (if truthy (dataGet eHello.data 1) then propGet (dataGet eHello.data 1) "stack"
       else .str "") :=
  message_fields.1 cfgH 0 eHello mHello eHello rfl

/-- Claim C7: a severity outside the mapping table yields `undefined`,
which is placed in the packet as-is, and `preparePacket` never throws. -/
theorem unknown_level_undefined :
    (∀ l : String,
      l ∉ ["ALL", "TRACE", "DEBUG", "INFO", "WARN", "ERROR", "FATAL"] →
      levelMapping l = .undefined) ∧
    (∀ (cfg : AppenderConfig) (now : Int) (e : LoggingEvent) (err : String),
      preparePacket cfg now e ≠ .error err) ∧
    (∀ (cfg : AppenderConfig) (now : Int) (e : LoggingEvent)
      (m : JSObj) (e1 : LoggingEvent),
      preparePacket cfg now e = .ok (m, e1) →
      e.level ∉ ["ALL", "TRACE", "DEBUG", "INFO", "WARN", "ERROR", "FATAL"] →
      objGet m "level" = .undefined) := by
  have hmap : ∀ l : String,
      l ∉ ["ALL", "TRACE", "DEBUG", "INFO", "WARN", "ERROR", "FATAL"] →
      levelMapping l = .undefined := by
    intro l hl
    simp only [List.mem_cons, List.not_mem_nil, or_false, not_or] at hl
    obtain ⟨h1, h2, h3, h4, h5, h6, h7⟩ := hl
    simp [levelMapping, h1, h2, h3, h4, h5, h6, h7]
  refine ⟨hmap, ?_, ?_⟩
  · intro cfg now e err
    obtain ⟨m, e1, hok⟩ := preparePacket_ok cfg now e
    rw [hok]
    exact fun h => nomatch h
  · intro cfg now e m e1 h hl
    obtain ⟨m0, e1x, hac⟩ := addCustomFields_ok cfg e []
    rw [preparePacket_eq cfg now e m0 e1x hac] at h
    injection h with h1
    injection h1 with hm he
    subst hm
    rw [objGet_finishPacket_level, (addCustomFields_event cfg e [] m0 e1x hac).1,
      hmap e.level hl]

/-- Claim C7 witness: the unmapped level `OFF` yields an `undefined`
packet level and no exception. -/
theorem unknown_level_undefined_witness :
    levelMapping "OFF" = .undefined ∧
    preparePacket cfgH 0 eOff ≠ .error "TypeError" ∧
    objGet mOff "level" = .undefined :=
  ⟨unknown_level_undefined.1 "OFF" (by decide),
   unknown_level_undefined.2.1 cfgH 0 eOff "TypeError",
   unknown_level_undefined.2.2 cfgH 0 eOff mOff eOff rfl (by decide)⟩

/-- Claim C8 counterexample: the packet of an event whose only data item
is a GELF carrier has `short_message = undefined`; JSON serialization
drops that member, so the decompressed reparse is not field-for-field
equal to the packet. -/
theorem round_trip_counterexample :
    preparePacket cfgH 0 eOnlyCarrier = .ok (mOnlyCarrier, eOnlyCarrierShifted) ∧
    decompressReparse mOnlyCarrier = .obj mOnlyCarrier.tail ∧
    decompressReparse mOnlyCarrier ≠ .obj mOnlyCarrier :=
  ⟨rfl, rfl, ne_of_beqVal_false rfl⟩

/-- Claim C8 amended: decompressing and reparsing yields the packet with
its `undefined`-valued members removed; it is structurally equal
field-for-field whenever no member of the packet is `undefined`. -/
theorem round_trip_packet (cfg : AppenderConfig) (now : Int) (e : LoggingEvent)
    (m : JSObj) (e1 : LoggingEvent)
    (_hpk : preparePacket cfg now e = .ok (m, e1))
    (hnu : noUndefMembers (.obj m) = true) :
    decompressReparse m = .obj m :=
  jsonRoundTrip_id (.obj m) hnu

/-- Claim C8 witness: the `["hello"]` packet has no undefined members and
survives the round trip unchanged. -/
theorem round_trip_packet_witness : decompressReparse mHello = .obj mHello :=
  round_trip_packet cfgH 0 eHello mHello eHello rfl rfl

/-- Claim C9: with a facility configured and a `customFields` object
supplied, construction writes `_facility` into the caller's object (the
default field set aliases it), mutating the configuration. -/
theorem construction_mutates_config (config : GelfConfig) (fac : String) (cf : JSObj)
    (hf : config.facility = some fac) (hc : config.customFields = some cf) :
    (buildDefaults config).1.customFields = some (objSet cf "_facility" (.str fac)) ∧
    (buildDefaults config).2 = objSet cf "_facility" (.str fac) := by
  simp [buildDefaults, hf, hc]

/-- Claim C9 witness: facility `"mail"` with customFields `{_a: 1}`
leaves the caller's object holding `_facility = "mail"`, aliased as the
default field set. -/
theorem construction_mutates_config_witness :
    (buildDefaults ⟨some "mail", some [("_a", .num 1)]⟩).1.customFields =
      some [("_a", JSValue.num 1), ("_facility", JSValue.str "mail")] ∧
    (buildDefaults ⟨some "mail", some [("_a", .num 1)]⟩).2 =
      [("_a", JSValue.num 1), ("_facility", JSValue.str "mail")] :=
  construction_mutates_config ⟨some "mail", some [("_a", .num 1)]⟩ "mail"
    [("_a", .num 1)] rfl rfl

/-- Claim C10: with `appendCategory = "id"` the category step sets the
packet key `_id` to the event's category name, even though the
custom-field filter always rejects `_id`. -/
theorem append_category_id (cfg : AppenderConfig) (e : LoggingEvent) (msg0 : JSObj)
    (hcat : cfg.appendCategory = some "id") :
    customKeyOk "_id" = false ∧
    ∀ m e1, addCustomFields cfg e msg0 = .ok (m, e1) →
      objGet m "_id" = .str e.categoryName := by
  refine ⟨by decide, ?_⟩
  intro m e1 h
  have happ : ("_" ++ "id" : String) = "_id" := rfl
  have hbase : objGet (baseFields cfg e msg0) "_id" = .str e.categoryName := by
    simp only [baseFields, hcat]
    rw [happ, objGet_objSet_self]
  rw [addCustomFields_eq] at h
  split at h
  · cases h; exact hbase
  · split at h
    · cases h; exact hbase
    · cases h
      rw [objGet_copyFields_not_custom _ _ (by decide)]
      exact hbase

/-- Claim C10 witness: with `appendCategory = "id"` and category `"c"`,
the built message carries `_id = "c"` although the filter rejects `_id`. -/
theorem append_category_id_witness :
    customKeyOk "_id" = false ∧
    objGet [("_id", JSValue.str "c")] "_id" = JSValue.str "c" :=
  ⟨(append_category_id cfgCatId eHello [] rfl).1,
   (append_category_id cfgCatId eHello [] rfl).2 [("_id", .str "c")] eHello rfl⟩

end Gelf
